import Mathlib

/-!
Shallow embedding of the learntools lesson-preprocessing core
(`notebooks/nb_utils/lesson_preprocessor.py`) and of the geospatial
geocoding stub (`learntools/geospatial/tools.py`), with theorems settling
the frozen claims about the natural-language specification.

Cell text is modelled as `List Char` (Python `str`); Python's
`re.finditer` over the fixed pattern, `str.strip`, `str.split`, `int()`,
and list indexing are modelled by executable structural functions defined
below.  External collaborators (the `MacroProcessor` substitution
resolver, `git` branch detection, `geopandas`) are passed in as function
parameters.
-/

namespace Learntools

/-! ## Text utilities -/

/-- Python `str.strip()` (whitespace trim at both ends). -/
def trimChars (s : List Char) : List Char :=
  ((s.dropWhile Char.isWhitespace).reverse.dropWhile Char.isWhitespace).reverse

/-- Python `str.split(sep)` for a single-character separator: the list of
(possibly empty) chunks between occurrences of `sep`.  Always nonempty. -/
def splitOnChar (sep : Char) : List Char → List (List Char)
  | [] => [[]]
  | c :: cs =>
    match splitOnChar sep cs with
    | [] => [[c]]
    | p :: ps => if c = sep then [] :: p :: ps else (c :: p) :: ps

/-- Whether `needle` is a prefix of `hay`. -/
def isPrefixCh : List Char → List Char → Bool
  | [], _ => true
  | _ :: _, [] => false
  | a :: as, b :: bs => a = b && isPrefixCh as bs

/-- Whether `needle` occurs as a contiguous substring of `hay`
(Python `needle in hay`). -/
def containsCh (needle : List Char) : List Char → Bool
  | [] => isPrefixCh needle []
  | c :: cs => isPrefixCh needle (c :: cs) || containsCh needle cs

/-- Decimal digits to a natural number. -/
def digitsToNat (ds : List Char) : Nat :=
  ds.foldl (fun a c => a * 10 + (c.toNat - ('0').toNat)) 0

/-- Errors raised by the embedded Python code.  `unrecognizedMacro` models
`UnrecognizedMacroException` (carrying the macro name, as the source's
message does); the others model the corresponding Python exception kinds.
`typeError` also stands in for the non-`UnrecognizedMacroException`
failures that invoking a non-macro attribute produces (see `expand_macro`).
-/
inductive Err : Type where
  | unrecognizedMacro (name : List Char)
  | typeError
  | valueError
  | indexError
  | attributeError
  | nameError
  deriving DecidableEq, Repr

/-- Python `int(s)` on a string: strip whitespace, optional sign, at least
one decimal digit; anything else raises `ValueError`.  (Underscore digit
separators, which CPython also accepts, are not modelled; no macro
argument in this repository uses them.) -/
def pyInt (s : List Char) : Except Err Int :=
  match trimChars s with
  | '-' :: ds =>
    if ds ≠ [] ∧ ds.all Char.isDigit then .ok (-(digitsToNat ds : Int))
    else .error .valueError
  | '+' :: ds =>
    if ds ≠ [] ∧ ds.all Char.isDigit then .ok (digitsToNat ds : Int)
    else .error .valueError
  | ds =>
    if ds ≠ [] ∧ ds.all Char.isDigit then .ok (digitsToNat ds : Int)
    else .error .valueError

/-- Python list indexing `l[i]` with an `int` index: negative indices
count from the end; an index out of range raises `IndexError`. -/
def pyIndex {α : Type} (l : List α) (i : Int) : Except Err α :=
  let j : Int := if i < 0 then i + l.length else i
  if h : 0 ≤ j ∧ j < (l.length : Int) then
    .ok (l.get ⟨j.toNat, by omega⟩)
  else
    .error .indexError

/-- Python `list.index(a)`: index of the first occurrence, `none` when the
element is absent (where CPython raises `ValueError`). -/
def listIndexOf (l : List (List Char)) (a : List Char) : Option Nat :=
  match l with
  | [] => none
  | x :: xs =>
    if x = a then some 0
    else (listIndexOf xs a).map (· + 1)

/-! ## Data model (spec §3, populated externally by `render.py`) -/

/-- A lesson's tutorial descriptor (`tutorial.url`). -/
structure Tutorial : Type where
  url : List Char

/-- A lesson's exercise descriptor (`exercise.forking_url`). -/
structure Exercise : Type where
  forking_url : List Char

/-- One lesson of a track.  `tutorial` / `exercise` are optional
attributes (Python `hasattr` checks / `AttributeError` on access model
`none`), `next` is the non-owning reference to the following lesson,
absent (or `None`) on the last lesson. -/
inductive Lesson : Type where
  | mk (topic : List Char) (tutorial : Option Tutorial)
       (exercise : Option Exercise) (last : Bool) (next : Option Lesson)

def Lesson.topic : Lesson → List Char
  | ⟨t, _, _, _, _⟩ => t

def Lesson.tutorial : Lesson → Option Tutorial
  | ⟨_, t, _, _, _⟩ => t

def Lesson.exercise : Lesson → Option Exercise
  | ⟨_, _, e, _, _⟩ => e

def Lesson.last : Lesson → Bool
  | ⟨_, _, _, l, _⟩ => l

def Lesson.next : Lesson → Option Lesson
  | ⟨_, _, _, _, n⟩ => n

/-- The owning course (`track_meta`). -/
structure Track : Type where
  course_name : List Char
  course_url : List Char
  lessons : List Lesson

/-- Track configuration (`track_config.yaml`): `cfg.get('daily')` and
`cfg.get('development', False)`; an absent key is falsy, so both are
modelled as `Bool`. -/
structure Cfg : Type where
  daily : Bool
  development : Bool

/-- A cell's `source`: document cells carry one big string, while
`make_cell` builds cells whose `source` is a list of line strings
(both are accepted by `nbformat.from_dict`). -/
inductive CellSource : Type where
  | str (s : List Char)
  | lines (ls : List (List Char))
  deriving DecidableEq, Repr

/-- A document cell.  `cell_type` is `none` when the key is absent from
the underlying dict (which happens for cells built by the code branch of
`make_cell`, see there).  The two boolean flags model presence of the
`_kg_hide-input` / `_kg_hide-output` metadata keys. -/
structure Cell : Type where
  cell_type : Option String
  source : CellSource
  hide_input : Bool := false
  hide_output : Bool := false
  deriving DecidableEq, Repr

/-- The per-pass bindings `self.track`, `self.lesson`, `self.cfg` made at
the top of `preprocess` (the lesson is `None` for `type='extra'`
notebooks). -/
structure Ctx : Type where
  track : Track
  lesson : Option Lesson
  cfg : Cfg

/-- The notebook being transformed: its cell sequence plus the declared
document type from `nb_meta.type`. -/
structure Notebook : Type where
  cells : List Cell
  nb_type : String
  deriving DecidableEq, Repr

/-! ## The macro scanner

`process_cell` runs `re.finditer(r'#\$([^$]+)\$', src)`.  The pattern has
no nesting and `[^$]+` cannot cross a `'$'`, so `finditer`'s
leftmost, non-overlapping semantics are realised exactly by the
single-pass character state machine below: outside / just after `'#'` /
inside a candidate reference.  A failed candidate (`"#$"` followed
immediately by `'$'` or by end of input) is emitted as literal text —
re-scanning the skipped characters is unnecessary because none of them
can start a match (`'#'` must be followed by `'$'`, which is checked
eagerly, and the characters of a candidate's inner run are non-`'$'`).
-/

/-- Scanner state: `outside` literal text, `sawHash` after a `'#'`,
`inside r` after `"#$"` with reversed inner accumulator `r`. -/
inductive ScanState : Type where
  | outside
  | sawHash
  | inside (innerRev : List Char)

/-- One left-to-right scan producing the list of matches — each as
(literal text preceding the match, the match's group, i.e. the text
between `#$` and `$`) — together with the literal tail after the last
match.  `preRev` is the reversed literal accumulator since the last
match. -/
def scanAux : ScanState → List Char → List Char →
    List (List Char × List Char) × List Char
  | .outside, preRev, [] => ([], preRev.reverse)
  | .sawHash, preRev, [] => ([], ('#' :: preRev).reverse)
  | .inside innerRev, preRev, [] =>
      ([], (innerRev ++ '$' :: '#' :: preRev).reverse)
  | .outside, preRev, c :: cs =>
      if c = '#' then scanAux .sawHash preRev cs
      else scanAux .outside (c :: preRev) cs
  | .sawHash, preRev, c :: cs =>
      if c = '$' then scanAux (.inside []) preRev cs
      else if c = '#' then scanAux .sawHash ('#' :: preRev) cs
      else scanAux .outside (c :: '#' :: preRev) cs
  | .inside innerRev, preRev, c :: cs =>
      if c = '$' then
        match innerRev with
        | [] => scanAux .outside ('$' :: '$' :: '#' :: preRev) cs
        | _ :: _ =>
          match scanAux .outside [] cs with
          | (ms, tail) => ((preRev.reverse, innerRev.reverse) :: ms, tail)
      else scanAux (.inside (c :: innerRev)) preRev cs

/-- All non-overlapping matches of `#\$([^$]+)\$` in `src`, left to
right, with the literal text between them (model of the `finditer` loop's
span bookkeeping in `process_cell`). -/
def findMacros (src : List Char) : List (List Char × List Char) × List Char :=
  scanAux .outside [] src

/-! ## Macro-call parsing and dispatch (`expand_macro`) -/

/-- The argument-parsing prologue of `expand_macro`: when the matched
group ends in `')'`, `macro[:-1].split('(')` must yield exactly a name
and an argument string (any other number of parts makes the two-name
unpacking raise `ValueError`); the stripped argument string gives one
argument when nonempty, none otherwise.  Without a trailing `')'` the
whole group is the name and there are no arguments. -/
def parseCall (mac : List Char) : Except Err (List Char × List (List Char)) :=
  if mac.getLast? = some ')' then
    match splitOnChar '(' mac.dropLast with
    | [name, argstr] =>
      .ok (name, if trimChars argstr = [] then [] else [trimChars argstr])
    | _ => .error .valueError
  else
    .ok (mac, [])

/-- The result of one macro operation: an optional expansion string plus
the (possibly metadata-mutated) cell. -/
abbrev OpResult := Except Err (Option (List Char) × Cell)

/-- The shape of a built-in macro operation: per-pass context, the parsed
positional arguments (each a string), and the enclosing cell. -/
abbrev MacroOp := Ctx → List (List Char) → Cell → OpResult

/-- Model of `EXERCISE_FORKING_URL(lesson_num=None)`: the current lesson's
exercise fork URL, or the 1-based-indexed lesson's when an argument is
given. -/
def op_EXERCISE_FORKING_URL : MacroOp := fun ctx args cell =>
  match args with
  | [] =>
    match ctx.lesson with
    | none => .error .attributeError
    | some l =>
      match l.exercise with
      | none => .error .attributeError
      | some ex => .ok (some ex.forking_url, cell)
  | [n] =>
    match pyInt n with
    | .error e => .error e
    | .ok i =>
      match pyIndex ctx.track.lessons (i - 1) with
      | .error e => .error e
      | .ok l =>
        match l.exercise with
        | none => .error .attributeError
        | some ex => .ok (some ex.forking_url, cell)
  | _ => .error .typeError

/-- Model of `HIDE_INPUT(cell)`: sets the `_kg_hide-input` metadata key, returns
nothing.  Its only Python parameter is `cell`, so a positional macro
argument raises `TypeError`. -/
def op_HIDE_INPUT : MacroOp := fun _ args cell =>
  match args with
  | [] => .ok (none, { cell with hide_input := true })
  | _ => .error .typeError

/-- Model of `HIDE_OUTPUT(cell)`: sets the `_kg_hide-output` metadata key. -/
def op_HIDE_OUTPUT : MacroOp := fun _ args cell =>
  match args with
  | [] => .ok (none, { cell with hide_output := true })
  | _ => .error .typeError

/-- Model of `HIDE(cell)`: applies both `HIDE_INPUT` and `HIDE_OUTPUT`. -/
def op_HIDE : MacroOp := fun _ args cell =>
  match args with
  | [] => .ok (none, { cell with hide_input := true, hide_output := true })
  | _ => .error .typeError

/-- Model of `YOURTURN(**kwargs)`: fixed framing text with the current lesson's
exercise fork URL and topic. -/
def op_YOURTURN : MacroOp := fun ctx args cell =>
  match args with
  | [] =>
    match ctx.lesson with
    | none => .error .attributeError
    | some l =>
      match l.exercise with
      | none => .error .attributeError
      | some ex =>
        .ok (some (("# Your Turn\n\nTry the [hands-on exercise](").data
              ++ ex.forking_url ++ (") with ").data ++ l.topic), cell)
  | _ => .error .typeError

/-- Model of `TUT_BETA_NOTE(jot_id, **kwargs)`: fixed survey blurb around the
constructed jotform URL. -/
def op_TUT_BETA_NOTE : MacroOp := fun _ args cell =>
  match args with
  | [jot_id] =>
    .ok (some (("### P.S...\n\nThis course is still in beta, so I'd love to get your feedback. If you have a moment to [fill out a super-short survey about this lesson](https://form.jotform.com/").data
          ++ jot_id
          ++ ("), I'd greatly appreciate it. You can also leave public feedback in the comments below, or on the [Learn Forum](https://www.kaggle.com/learn-forum).\n").data),
        cell)
  | _ => .error .typeError

/-- Model of `EXERCISE_SETUP(**kwargs)`: a no-op returning `None`. -/
def op_EXERCISE_SETUP : MacroOp := fun _ args cell =>
  match args with
  | [] => .ok (none, cell)
  | _ => .error .typeError

/-- Model of `TUTORIAL_URL(lesson_num=None, **kwargs)`: the tutorial URL of the
current or of the 1-based-indexed lesson. -/
def op_TUTORIAL_URL : MacroOp := fun ctx args cell =>
  match args with
  | [] =>
    match ctx.lesson with
    | none => .error .attributeError
    | some l =>
      match l.tutorial with
      | none => .error .attributeError
      | some t => .ok (some t.url, cell)
  | [n] =>
    match pyInt n with
    | .error e => .error e
    | .ok i =>
      match pyIndex ctx.track.lessons (i - 1) with
      | .error e => .error e
      | .ok l =>
        match l.tutorial with
        | none => .error .attributeError
        | some t => .ok (some t.url, cell)
  | _ => .error .typeError

/-- Model of `EXERCISE_URL(lesson_num, **kwargs)`: `int(lesson_num) - 1` indexes
`track.lessons` with Python list-indexing semantics (so `0` and small
negative arguments resolve from the end of the list rather than
raising); the argument is mandatory. -/
def op_EXERCISE_URL : MacroOp := fun ctx args cell =>
  match args with
  | [n] =>
    match pyInt n with
    | .error e => .error e
    | .ok i =>
      match pyIndex ctx.track.lessons (i - 1) with
      | .error e => .error e
      | .ok l =>
        match l.exercise with
        | none => .error .attributeError
        | some ex => .ok (some ex.forking_url, cell)
  | _ => .error .typeError

/-- Model of `EXERCISE_PREAMBLE(**kwargs)`: fixed text with the current lesson's
topic and tutorial URL. -/
def op_EXERCISE_PREAMBLE : MacroOp := fun ctx args cell =>
  match args with
  | [] =>
    match ctx.lesson with
    | none => .error .attributeError
    | some l =>
      match l.tutorial with
      | none => .error .attributeError
      | some t =>
        .ok (some (("These exercises accompany the tutorial on [").data
              ++ l.topic ++ ("](").data ++ t.url ++ (").").data), cell)
  | _ => .error .typeError

/-- The fixed daily-mode message returned by `KEEP_GOING`. -/
def keepGoingDailyMsg : List Char :=
  ("\n**You'll get another email tomorrow so you can keep learning. See you then.**").data

/-- Model of `KEEP_GOING(**kwargs)`: in daily mode the fixed "another email
tomorrow" message; otherwise framing text for `lesson.next`, preferring
its tutorial URL (the `hasattr` check) and falling back to its exercise
fork URL.  Dereferencing an absent `next` (last lesson, or no current
lesson) raises `AttributeError`. -/
def op_KEEP_GOING : MacroOp := fun ctx args cell =>
  match args with
  | [] =>
    if ctx.cfg.daily then .ok (some keepGoingDailyMsg, cell)
    else
      match ctx.lesson with
      | none => .error .attributeError
      | some l =>
        match l.next with
        | none => .error .attributeError
        | some nl =>
          match
            (match nl.tutorial with
             | some t => Except.ok t.url
             | none =>
               match nl.exercise with
               | some ex => Except.ok ex.forking_url
               | none => Except.error Err.attributeError) with
          | .error e => .error e
          | .ok next_url =>
            .ok (some (("# Keep Going\n\nYou are ready for **[").data
                  ++ nl.topic ++ ("](").data ++ next_url ++ (").**\n").data),
                cell)
  | _ => .error .typeError

/-- Model of `END_OF_EMB_EXERCISE(jot_id, **kwargs)`: fixed survey blurb; when
the current lesson is not the last, a "Keep going" block with the next
lesson's tutorial URL and topic is appended. -/
def op_END_OF_EMB_EXERCISE : MacroOp := fun ctx args cell =>
  match args with
  | [jot_id] =>
    match ctx.lesson with
    | none => .error .attributeError
    | some l =>
      let txt :=
        ("\n---\nThat's the end of this exercise. How'd it go? If you have any questions, be sure to post them on the [forums](https://www.kaggle.com/learn-forum).\n\n**P.S.** This course is still in beta, so I'd love to get your feedback. If you have a moment to [fill out a super-short survey about this exercise](https://form.jotform.com/").data
          ++ jot_id ++ ("), I'd greatly appreciate it.\n").data
      if l.last then .ok (some txt, cell)
      else
        match l.next with
        | none => .error .attributeError
        | some nl =>
          match nl.tutorial with
          | none => .error .attributeError
          | some t =>
            .ok (some (txt
                  ++ ("\n# Keep going\n\nWhen you're ready to continue, [click here](").data
                  ++ t.url
                  ++ (") to continue on to the next tutorial on ").data
                  ++ nl.topic ++ (".\n").data),
                cell)
  | _ => .error .typeError

/-- The closed table of built-in macro operations, keyed by exact name
(the methods of `LearnLessonPreprocessor` intended as macros). -/
def builtinOp (name : List Char) : Option MacroOp :=
  if name = ("EXERCISE_FORKING_URL").data then some op_EXERCISE_FORKING_URL
  else if name = ("HIDE_INPUT").data then some op_HIDE_INPUT
  else if name = ("HIDE_OUTPUT").data then some op_HIDE_OUTPUT
  else if name = ("HIDE").data then some op_HIDE
  else if name = ("YOURTURN").data then some op_YOURTURN
  else if name = ("TUT_BETA_NOTE").data then some op_TUT_BETA_NOTE
  else if name = ("EXERCISE_SETUP").data then some op_EXERCISE_SETUP
  else if name = ("TUTORIAL_URL").data then some op_TUTORIAL_URL
  else if name = ("EXERCISE_URL").data then some op_EXERCISE_URL
  else if name = ("EXERCISE_PREAMBLE").data then some op_EXERCISE_PREAMBLE
  else if name = ("KEEP_GOING").data then some op_KEEP_GOING
  else if name = ("END_OF_EMB_EXERCISE").data then some op_END_OF_EMB_EXERCISE
  else none

/-- The non-macro attributes of the preprocessor object that
`getattr(self, macro, None)` also resolves: the class's other methods and
the per-pass instance attributes bound in `preprocess`.  Invoking any of
them with the dispatcher's calling convention (`f(*args, cell=cell)`)
fails with an exception other than `UnrecognizedMacroException` — a
`TypeError` for most (wrong signature, or a non-callable such as
`self.track`); `process_cell` recurses to a `RecursionError`, and
`make_cell` with one argument returns a non-string that makes the
splicing step `newsrc += expansion` raise `TypeError`.  All are modelled
uniformly as `typeError`.  (Attributes inherited from the external
`nbconvert.Preprocessor` base class, and dunder attributes, resolve the
same way but are outside this model.) -/
def otherAttrNames : List (List Char) :=
  [("preprocess").data, ("add_header_and_footer").data,
   ("pip_install_lt_hack").data, ("pip_install_hack").data,
   ("pip_install_cell").data, ("make_cell").data,
   ("process_cell").data, ("expand_macro").data,
   ("track").data, ("lesson").data, ("cfg").data]

/-- Model of `expand_macro(macro, cell)`: parse the optional argument, resolve the
name via `getattr(self, macro, None)` — a built-in operation, or any other
attribute of the object — and invoke it; only a name matching no
attribute raises `UnrecognizedMacroException` (whose message carries the
name, after the argument suffix has been split off). -/
def expand_macro (ctx : Ctx) (mac : List Char) (cell : Cell) : OpResult :=
  match parseCall mac with
  | .error e => .error e
  | .ok (name, args) =>
    match builtinOp name with
    | some op => op ctx args cell
    | none =>
      if name ∈ otherAttrNames then .error .typeError
      else .error (.unrecognizedMacro name)

/-- The text actually spliced for an expansion: `if expansion:` treats
`None` (and the empty string) as "insert nothing". -/
def optText (o : Option (List Char)) : List Char := o.getD []

/-- The body of `process_cell`'s `finditer` loop: thread the cell through
the matches in order, concatenating the literal text before each match
with its (possibly empty) expansion.  Under the permissive
`IGNORE_UNKNOWN_MACROS` flag an `UnrecognizedMacroException` is logged
and treated as an empty expansion; every other error propagates. -/
def expandMatches (ignore : Bool) (ctx : Ctx) :
    Cell → List (List Char × List Char) → Except Err (List Char × Cell)
  | cell, [] => .ok ([], cell)
  | cell, (pre, mac) :: rest =>
    match expand_macro ctx mac cell with
    | .error (.unrecognizedMacro n) =>
      if ignore then
        match expandMatches ignore ctx cell rest with
        | .error e => .error e
        | .ok (txt, c) => .ok (pre ++ txt, c)
      else .error (.unrecognizedMacro n)
    | .error e => .error e
    | .ok (exp, c1) =>
      match expandMatches ignore ctx c1 rest with
      | .error e => .error e
      | .ok (txt, c2) => .ok (pre ++ optText exp ++ txt, c2)

/-- Model of `process_cell(cell)`: find all macro references in `cell['source']`,
expand them in place, and return the cell with the rebuilt text (the
literal tail after the last match is appended at the end).  The cell
itself is always returned — never `None`.  A `source` that is a list of
line strings would make `re.finditer` raise `TypeError`. -/
def process_cell (ignore : Bool) (ctx : Ctx) (cell : Cell) :
    Except Err Cell :=
  match cell.source with
  | .lines _ => .error .typeError
  | .str src =>
    match findMacros src with
    | (pairs, tail) =>
      match expandMatches ignore ctx cell pairs with
      | .error e => .error e
      | .ok (body, c) => .ok { c with source := .str (body ++ tail) }

/-! ## Lesson pipeline orchestrator (`preprocess` and helpers) -/

/-- The truncation sentinel token checked by `preprocess`. -/
def rmBelow : List Char := ("#%%RM_BELOW%%").data

/-- Whether a cell triggers the truncation `break`:
`cell['source'].strip() == '#%%RM_BELOW%%'`.  A list-of-lines source has
no `strip` method and can never equal the token. -/
def isSentinel (cell : Cell) : Bool :=
  match cell.source with
  | .str s => trimChars s = rmBelow
  | .lines _ => false

/-- The cell-accumulation loop of `preprocess`: scan cells in order,
`break` at the first sentinel cell (dropping it and everything after),
otherwise run the dispatcher and then the external substitution resolver
(`macroer.process_cell`, modelled as `macroer : Cell → Option Cell`),
keeping the cell only if neither dropped it.  A list-of-lines source
makes `src.strip()` raise `AttributeError`. -/
def collect_cells (ignore : Bool) (ctx : Ctx) (macroer : Cell → Option Cell) :
    List Cell → Except Err (List Cell)
  | [] => .ok []
  | cell :: rest =>
    match cell.source with
    | .lines _ => .error .attributeError
    | .str s =>
      if trimChars s = rmBelow then .ok []
      else
        match process_cell ignore ctx cell with
        | .error e => .error e
        | .ok c =>
          match macroer c with
          | none => collect_cells ignore ctx macroer rest
          | some c2 =>
            match collect_cells ignore ctx macroer rest with
            | .error e => .error e
            | .ok cs => .ok (c2 :: cs)

/-- Model of `add_header_and_footer(cells)`.  The source body is broken and every
call fails before producing any cell: line 67 reads
`header_content = course info + "\n---"` (invalid syntax; read as the
intended `course_info`, execution still stops at the bare calls to the
nonexistent module-global `make_cell` on lines 69–70, and the return
statement references the undefined name `footer_cells`).  Modelled as an
unconditionally failing computation. -/
def add_header_and_footer (track : Track) (cells : List Cell) :
    Except Err (List Cell) :=
  .error .nameError

/-- Model of `make_cell(cell_type, **kwargs)`.  For `cell_type == "code"` the
`defaults` dict is REASSIGNED to `dict(execution_count=None, outputs=[])`,
so the `cell_type` and `metadata` keys are lost: the produced cell has no
`cell_type` key at all (modelled as `none`). -/
def make_cell (cell_type : String) (source : CellSource) : Cell :=
  if cell_type = "code" then
    { cell_type := none, source := source }
  else
    { cell_type := some cell_type, source := source }

/-- Model of `pip_install_cell(pkg_spec)`: one code cell whose source is the
single-element line list with the install command. -/
def pip_install_cell (pkg_spec : List Char) : Cell :=
  make_cell "code"
    (.lines [("!pip install -U -t /kaggle/working/ ").data ++ pkg_spec])

/-- The `sys.path` augmentation cell built in `pip_install_hack`. -/
def syspath_cell : Cell :=
  make_cell "code"
    (.lines [("import sys\n").data, ("sys.path.append('/kaggle/working')").data])

/-- Model of `pip_install_hack(nb, pkgs)`: prepend one install cell per package,
then the `sys.path` cell; with no packages the notebook is untouched. -/
def pip_install_hack (nb : Notebook) (pkgs : List (List Char)) : Notebook :=
  if pkgs = [] then nb
  else { nb with cells := (pkgs.map pip_install_cell) ++ [syspath_cell] ++ nb.cells }

/-- Model of `pip_install_lt_hack(nb)`: install learntools pinned to the detected
git branch.  Branch detection (`get_git_branch`, with its
`CalledProcessError` fallback to `'master'`) is an external call, so the
resulting branch string is a parameter here. -/
def pip_install_lt_hack (branch : List Char) (nb : Notebook) : Notebook :=
  pip_install_hack nb
    [("git+https://github.com/Kaggle/learntools.git@").data ++ branch]

/-- The tail of `preprocess` after the cell sequence has been replaced:
bootstrap-cell injection when `cfg.get('development', False)` is truthy
and `nb_meta.type == 'exercise'`. -/
def finishPass (ctx : Ctx) (branch : List Char) (nb : Notebook) :
    Except Err Notebook :=
  if ctx.cfg.development && nb.nb_type == "exercise" then
    .ok (pip_install_lt_hack branch nb)
  else .ok nb

/-- Model of `preprocess(nb, resources)`: accumulate surviving cells, then — when
`cfg.get('daily')` is falsy — call `add_header_and_footer(new_cells)`
(whose return value the source discards, and whose body is broken, so
this branch always aborts the pass), install `new_cells` as the
notebook's cell sequence, and finally inject development bootstrap
cells. -/
def preprocess (ignore : Bool) (ctx : Ctx) (macroer : Cell → Option Cell)
    (branch : List Char) (nb : Notebook) : Except Err Notebook :=
  match collect_cells ignore ctx macroer nb.cells with
  | .error e => .error e
  | .ok new_cells =>
    if ctx.cfg.daily then
      finishPass ctx branch { nb with cells := new_cells }
    else
      match add_header_and_footer ctx.track new_cells with
      | .error e => .error e
      | .ok _ =>
        -- the source ignores the returned list; new_cells is installed as-is
        finishPass ctx branch { nb with cells := new_cells }

/-! ## Geospatial geocoding stub (`learntools/geospatial/tools.py`) -/

/-- The fixed list of addresses the stub can geocode. -/
def all_addresses : List (List Char) :=
  [("2224 Shattuck Avenue Berkeley CA").data,
   ("1799 Solano Avenue Berkeley CA").data,
   ("1444 Shattuck Place Berkeley CA").data,
   ("3001 Telegraph Avenue Berkeley CA").data,
   ("2128 Oxford Street Berkeley CA").data]

/-- Model of `Nominatim.geocode(address)`: look the address up in
`all_addresses` (a missing address raises `ValueError` from
`list.index`), load the shapefile for that index, and build a `Point`
from its geometry.  Every step sits inside `try: ... except: return
None`, a bare `except` that swallows any failure, so the function is
total and never raises.  The external `geopandas` loader and the `Point`
constructor are parameters (`read_file` on the index-numbered shapefile
path, `mkPoint` on the loaded frame); either may fail. -/
def geocode {G P : Type} (read_file : Nat → Except Unit G)
    (mkPoint : G → Except Unit P) (address : List Char) : Option P :=
  match listIndexOf all_addresses address with
  | none => none
  | some i =>
    match read_file i with
    | .error _ => none
    | .ok g =>
      match mkPoint g with
      | .error _ => none
      | .ok p => some p

/-! ## Helper lemmas about the scanner and the text utilities -/

/-- The literal text corresponding to a pending scanner state. -/
def stateText : ScanState → List Char
  | .outside => []
  | .sawHash => ['#']
  | .inside innerRev => '#' :: '$' :: innerRev.reverse

/-- Reassemble a match decomposition: each match contributes its
preceding literal text and its delimited reference `#$…$`, followed by
the final literal tail. -/
def joinPairs (ms : List (List Char × List Char)) (tail : List Char) :
    List Char :=
  ms.foldr (fun pm acc => pm.1 ++ '#' :: '$' :: (pm.2 ++ '$' :: acc)) tail

theorem scanAux_join (s : List Char) : ∀ (st : ScanState) (preRev : List Char),
    joinPairs (scanAux st preRev s).1 (scanAux st preRev s).2
      = preRev.reverse ++ stateText st ++ s := by
  induction s with
  | nil =>
    intro st preRev
    cases st <;> simp [scanAux, joinPairs, stateText]
  | cons c cs ih =>
    intro st preRev
    cases st with
    | outside =>
      by_cases hc : c = '#'
      · subst hc
        simpa [scanAux, stateText] using ih .sawHash preRev
      · simpa [scanAux, hc, stateText] using ih .outside (c :: preRev)
    | sawHash =>
      by_cases hd : c = '$'
      · subst hd
        simpa [scanAux, stateText] using ih (.inside []) preRev
      · by_cases hc : c = '#'
        · subst hc
          simpa [scanAux, hd, stateText] using ih .sawHash ('#' :: preRev)
        · simpa [scanAux, hd, hc, stateText] using ih .outside (c :: '#' :: preRev)
    | inside innerRev =>
      by_cases hd : c = '$'
      · subst hd
        cases innerRev with
        | nil =>
          simpa [scanAux, stateText] using ih .outside ('$' :: '$' :: '#' :: preRev)
        | cons i is =>
          have h := ih .outside []
          rcases hsc : scanAux .outside [] cs with ⟨ms, tail⟩
          rw [hsc] at h
          simp only [List.reverse_nil, List.nil_append, stateText] at h
          simp [scanAux, hsc, joinPairs, stateText, h, joinPairs] at h ⊢
          simp [h]
      · simpa [scanAux, hd, stateText] using ih (.inside (c :: innerRev)) preRev

/-- The match decomposition produced by `findMacros` reassembles to the
original text: all non-macro text is preserved verbatim and in order. -/
theorem findMacros_join (s : List Char) :
    joinPairs (findMacros s).1 (findMacros s).2 = s := by
  simpa [stateText] using scanAux_join s .outside []

/-- With no matches, the literal tail is the whole text. -/
theorem findMacros_no_match (s : List Char)
    (h : (findMacros s).1 = []) : (findMacros s).2 = s := by
  have := findMacros_join s
  rwa [h, joinPairs, List.foldr_nil] at this

/-- With no `'$'` in the remaining text, a scan started outside a
candidate reference (or just after a `'#'`) produces no match. -/
theorem scanAux_no_dollar (s : List Char) (hs : '$' ∉ s) :
    ∀ preRev : List Char,
      (scanAux .outside preRev s).1 = [] ∧ (scanAux .sawHash preRev s).1 = [] := by
  induction s with
  | nil =>
    intro preRev
    constructor <;> simp [scanAux]
  | cons c cs ih =>
    intro preRev
    have hc : c ≠ '$' := fun h => hs (h ▸ List.mem_cons_self c cs)
    have hcs : '$' ∉ cs := fun h => hs (List.mem_cons_of_mem c h)
    constructor
    · by_cases hh : c = '#'
      · subst hh
        simpa [scanAux] using (ih hcs preRev).2
      · simpa [scanAux, hh] using (ih hcs (c :: preRev)).1
    · by_cases hh2 : c = '#'
      · subst hh2
        simpa [scanAux, hc] using (ih hcs ('#' :: preRev)).2
      · simpa [scanAux, hc, hh2] using (ih hcs (c :: '#' :: preRev)).1

/-- A text containing no `'$'` has no macro matches. -/
theorem findMacros_of_no_dollar (s : List Char) (hs : '$' ∉ s) :
    findMacros s = ([], s) := by
  have h1 : (findMacros s).1 = [] := (scanAux_no_dollar s hs []).1
  have h2 := findMacros_no_match s h1
  rcases h : findMacros s with ⟨ms, tail⟩
  rw [h] at h1 h2
  simp at h1 h2
  rw [h1, h2]

/-- A non-whitespace character of `s` survives `trimChars`. -/
theorem mem_trimChars {c : Char} {s : List Char} (hc : c ∈ s)
    (hw : c.isWhitespace = false) : c ∈ trimChars s := by
  have step : ∀ l : List Char, c ∈ l → c ∈ l.dropWhile Char.isWhitespace := by
    intro l hl
    rcases (List.mem_append.1
        (by rw [List.takeWhile_append_dropWhile (p := Char.isWhitespace)]; exact hl :
          c ∈ l.takeWhile Char.isWhitespace ++ l.dropWhile Char.isWhitespace))
      with h | h
    · exact absurd (List.mem_takeWhile_imp h) (by simp [hw])
    · exact h
  unfold trimChars
  rw [List.mem_reverse]
  exact step _ (by rw [List.mem_reverse]; exact step _ hc)

/-- The sentinel token contains no `'$'`, so neither does any text whose
trim equals it. -/
theorem no_dollar_of_trim_rmBelow {s : List Char}
    (h : trimChars s = rmBelow) : '$' ∉ s := by
  intro hmem
  have : '$' ∈ rmBelow := h ▸ mem_trimChars hmem (by decide)
  exact absurd this (by decide)

theorem isPrefixCh_self_append (n post : List Char) :
    isPrefixCh n (n ++ post) = true := by
  induction n with
  | nil => simp [isPrefixCh]
  | cons a as ih => simp [isPrefixCh, ih]

/-- Anything of the shape `pre ++ needle ++ post` contains `needle`. -/
theorem containsCh_of_eq_append (n : List Char) :
    ∀ pre post : List Char, containsCh n (pre ++ n ++ post) = true := by
  intro pre
  induction pre with
  | nil =>
    intro post
    cases hnp : n ++ post with
    | nil =>
      obtain ⟨hn, hp⟩ := List.append_eq_nil.1 hnp
      simp [hn, hp, containsCh, isPrefixCh]
    | cons c cs =>
      simp only [List.nil_append, hnp, containsCh]
      rw [← hnp, isPrefixCh_self_append]
      simp
  | cons a as ih =>
    intro post
    have h2 := ih post
    simp only [List.cons_append, containsCh, List.append_assoc] at h2 ⊢
    simp [h2]

/-- A cell is always returned by `expandMatches` with some list of
per-match expansion texts, one per match, spliced between the literal
segments. -/
theorem expandMatches_shape (ig : Bool) (ctx : Ctx) :
    ∀ (pairs : List (List Char × List Char)) (cell : Cell)
      (body : List Char) (c : Cell),
      expandMatches ig ctx cell pairs = .ok (body, c) →
      ∃ exps : List (List Char), exps.length = pairs.length ∧
        body = (pairs.zip exps).foldr
          (fun pe acc => pe.1.1 ++ pe.2 ++ acc) [] := by
  intro pairs
  induction pairs with
  | nil =>
    intro cell body c h
    simp [expandMatches] at h
    exact ⟨[], by simp, by simp [h.1.symm]⟩
  | cons pm rest ih =>
    intro cell body c h
    rcases pm with ⟨pre, mac⟩
    simp only [expandMatches] at h
    rcases hexp : expand_macro ctx mac cell with e | ⟨exp, c1⟩
    · rw [hexp] at h
      rcases e with n | _ | _ | _ | _ | _
      · by_cases hig : ig = true
        · subst hig
          simp only [if_pos rfl] at h
          rcases hrest : expandMatches true ctx cell rest with e2 | ⟨txt, c2⟩
          · rw [hrest] at h; simp at h
          · rw [hrest] at h
            simp at h
            rcases ih cell txt c2 hrest with ⟨exps, hlen, hbody⟩
            refine ⟨[] :: exps, by simp [hlen], ?_⟩
            rw [← h.1, hbody]
            simp
        · simp [hig] at h
      all_goals simp at h
    · rw [hexp] at h
      simp only at h
      rcases hrest : expandMatches ig ctx c1 rest with e2 | ⟨txt, c2⟩
      · rw [hrest] at h; simp at h
      · rw [hrest] at h
        simp at h
        rcases ih c1 txt c2 hrest with ⟨exps, hlen, hbody⟩
        refine ⟨optText exp :: exps, by simp [hlen], ?_⟩
        rw [← h.1, hbody]
        simp

/-- Appending a common tail to the spliced segments is the same fold with
the tail as base. -/
theorem foldr_splice_append (l : List ((List Char × List Char) × List Char))
    (tail : List Char) :
    (l.foldr (fun pe acc => pe.1.1 ++ pe.2 ++ acc) []) ++ tail
      = l.foldr (fun pe acc => pe.1.1 ++ pe.2 ++ acc) tail := by
  induction l with
  | nil => simp
  | cons pe rest ih =>
    simp only [List.foldr_cons]
    rw [← ih]
    simp [List.append_assoc]

/-- Containment via an explicit decomposition of the haystack. -/
theorem containsCh_of_decomp {n hay : List Char} (pre post : List Char)
    (h : hay = pre ++ (n ++ post)) : containsCh n hay = true := by
  rw [h, ← List.append_assoc]
  exact containsCh_of_eq_append n pre post

theorem foldr_pre_append (pairs : List (List Char × List Char)) (tail : List Char) :
    (pairs.foldr (fun pm acc => pm.1 ++ acc) []) ++ tail
      = pairs.foldr (fun pm acc => pm.1 ++ acc) tail := by
  induction pairs with
  | nil => simp
  | cons pm rest ih =>
    simp only [List.foldr_cons]
    rw [← ih]
    simp [List.append_assoc]

/-- A macro whose parsed name matches no attribute of the preprocessor
raises `UnrecognizedMacroException` carrying that name. -/
theorem expand_macro_unrec (ctx : Ctx) (cell : Cell) (mac n : List Char)
    (args : List (List Char)) (hp : parseCall mac = .ok (n, args))
    (hb : builtinOp n = none) (hm : n ∉ otherAttrNames) :
    expand_macro ctx mac cell = .error (.unrecognizedMacro n) := by
  simp [ expand_macro, hp, hb, hm]

/-- Permissive mode on matches that all fail name resolution: every
expansion is empty, the cell is untouched, and only the literal segments
remain. -/
theorem expandMatches_all_unrec (ctx : Ctx) :
    ∀ (pairs : List (List Char × List Char)) (cell : Cell),
      (∀ pm ∈ pairs, ∃ n args, parseCall pm.2 = .ok (n, args) ∧
          builtinOp n = none ∧ n ∉ otherAttrNames) →
      expandMatches true ctx cell pairs
        = .ok (pairs.foldr (fun pm acc => pm.1 ++ acc) [], cell) := by
  intro pairs
  induction pairs with
  | nil => intro cell _; rfl
  | cons pm rest ih =>
    intro cell h
    rcases pm with ⟨pre, mac⟩
    obtain ⟨n, args, hp, hb, hmem⟩ := h (pre, mac) (List.mem_cons_self _ _)
    have hexp := expand_macro_unrec ctx cell mac n args hp hb hmem
    have hrest := ih cell (fun q hq => h q (List.mem_cons_of_mem _ hq))
    simp [expandMatches, hexp, hrest]

/-- A cell whose text has no macro match is returned unchanged. -/
theorem process_cell_no_macros (ig : Bool) (ctx : Ctx) (cell : Cell)
    (s : List Char) (hsrc : cell.source = .str s)
    (hfm : (findMacros s).1 = []) :
    process_cell ig ctx cell = .ok cell := by
  have htail := findMacros_no_match s hfm
  rcases hf : findMacros s with ⟨ms, tail⟩
  rw [hf] at hfm htail
  simp only at hfm htail
  subst hfm
  subst htail
  rcases cell with ⟨ct, src, hi, ho⟩
  simp only at hsrc
  subst hsrc
  simp [process_cell, hf, expandMatches]

theorem pyIndex_to_get {α : Type} (l : List α) (i : Int) (k : Nat)
    (hk : k < l.length)
    (hj : (if i < 0 then i + l.length else i) = (k : Int)) :
    pyIndex l i = .ok (l.get ⟨k, hk⟩) := by
  have hcond : (0 ≤ (if i < 0 then i + (l.length : Int) else i))
      ∧ (if i < 0 then i + (l.length : Int) else i) < (l.length : Int) := by
    rw [hj]
    exact ⟨by omega, by exact_mod_cast hk⟩
  have hto : (if i < 0 then i + (l.length : Int) else i).toNat = k := by
    rw [hj]; exact Int.toNat_natCast k
  simp only [pyIndex]
  rw [dif_pos hcond]
  exact congrArg Except.ok (congrArg l.get (Fin.ext (by simpa using hto)))

theorem pyIndex_out_of_range {α : Type} (l : List α) (i : Int)
    (h : (l.length : Int) ≤ i ∨ i < -(l.length : Int)) :
    pyIndex l i = .error .indexError := by
  simp only [pyIndex]
  by_cases h1 : i < 0
  · simp only [if_pos h1]
    rw [dif_neg (by omega)]
  · simp only [if_neg h1]
    rw [dif_neg (by omega)]

theorem listIndexOf_none_of_not_mem {l : List (List Char)} {a : List Char}
    (h : a ∉ l) : listIndexOf l a = none := by
  induction l with
  | nil => rfl
  | cons x xs ih =>
    have hx : ¬ x = a := fun hxa => h (hxa ▸ List.mem_cons_self x xs)
    have hxs : a ∉ xs := fun hm => h (List.mem_cons_of_mem x hm)
    simp [listIndexOf, hx, ih hxs]

/-! ## Concrete fixtures for witnesses and counterexamples -/

/-- A markdown document cell with the given text. -/
def mdCell (s : String) : Cell :=
  { cell_type := some "markdown", source := .str s.data }

def exLesson2 : Lesson :=
  ⟨("Topic Two").data, none, some ⟨("https://fork2").data⟩, true, none⟩

def exLesson1 : Lesson :=
  ⟨("Topic One").data, some ⟨("https://tut1").data⟩,
   some ⟨("https://fork1").data⟩, false, some exLesson2⟩

def exTrack : Track :=
  ⟨("Demo").data, ("https://course").data, [exLesson1, exLesson2]⟩

/-- Non-daily, non-development pass context. -/
def exCtx : Ctx := ⟨exTrack, some exLesson1, ⟨false, false⟩⟩

/-- Daily-mode pass context. -/
def exCtxDaily : Ctx := ⟨exTrack, some exLesson1, ⟨true, false⟩⟩

/-- Daily-mode development pass context. -/
def exCtxDev : Ctx := ⟨exTrack, some exLesson1, ⟨true, true⟩⟩

/-- The bootstrap install cell for the learntools package pinned to the
`master` branch. -/
def exPipCell : Cell :=
  pip_install_cell ((("git+https://github.com/Kaggle/learntools.git@").data)
    ++ (("master").data))

/-! ## Claim theorems -/

/-- Claim C1 (code bug, evaluated at a failing input).  The claim says a
pass with `cfg.daily` falsy installs a cell sequence of length
survivors + 2, framed by a generated header and footer.  In the code,
`add_header_and_footer` is broken (`course info` on line 67 is invalid
syntax; read as intended, the calls to the unbound module-global
`make_cell` and the undefined `footer_cells` still raise) and its return
value is discarded by `preprocess` anyway, so every non-daily pass
aborts with an error instead of framing: here a one-survivor non-daily
pass errors, while the same pass in daily mode installs exactly the one
survivor, as the claim's daily half states. -/
theorem claim_C1_code_eval :
    preprocess false exCtx some (("master").data)
        { cells := [mdCell ("A")], nb_type := "exercise" } = .error .nameError
    ∧ preprocess false exCtxDaily some (("master").data)
        { cells := [mdCell ("A")], nb_type := "extra" }
        = .ok { cells := [mdCell ("A")], nb_type := "extra" } :=
  ⟨rfl, rfl⟩

/-- Claim C4 (confirmed).  The accumulation scan stops at the first cell
whose trimmed text equals `#%%RM_BELOW%%`, dropping it and every later
cell: collecting any cell sequence equals collecting its longest
sentinel-free prefix; and on the concrete sequence
`[A, B, "#%%RM_BELOW%%", C, D]` the pre-framing output is exactly
`[A, B]`. -/
theorem claim_C4 :
    (∀ (ig : Bool) (ctx : Ctx) (macroer : Cell → Option Cell)
        (cells : List Cell),
      collect_cells ig ctx macroer cells
        = collect_cells ig ctx macroer
            (cells.takeWhile (fun c => !(isSentinel c))))
    ∧ collect_cells false exCtx some
        [mdCell ("A"), mdCell ("B"), mdCell ("#%%RM_BELOW%%"),
         mdCell ("C"), mdCell ("D")]
        = .ok [mdCell ("A"), mdCell ("B")] := by
  constructor
  · intro ig ctx macroer cells
    induction cells with
    | nil => rfl
    | cons c rest ih =>
      rcases hsrc : c.source with s | ls
      · by_cases hsent : trimChars s = rmBelow
        · have hs : isSentinel c = true := by simp [isSentinel, hsrc, hsent]
          simp [collect_cells, hsrc, hsent, List.takeWhile_cons, hs]
        · have hs : isSentinel c = false := by simp [isSentinel, hsrc, hsent]
          simp only [List.takeWhile_cons, hs, Bool.not_false, if_pos]
          simp only [collect_cells, hsrc, if_neg hsent]
          rw [ih]
      · have hs : isSentinel c = false := by simp [isSentinel, hsrc]
        simp only [List.takeWhile_cons, hs, Bool.not_false, if_pos]
        simp [collect_cells, hsrc]
  · rfl

/-- Claim C5 (confirmed).  The dispatcher's output text is the in-order
concatenation of the literal segments and the matches' (possibly empty)
expansions: the match decomposition reassembles to the input text (all
non-macro text preserved verbatim), every successful output splices one
expansion per match between the literal segments before the literal
tail, and a cell with no macro reference is returned identical. -/
theorem claim_C5 (ig : Bool) (ctx : Ctx) (cell : Cell) (s : List Char)
    (pairs : List (List Char × List Char)) (tail : List Char)
    (hsrc : cell.source = .str s) (hfm : findMacros s = (pairs, tail)) :
    joinPairs pairs tail = s
    ∧ (∀ c', process_cell ig ctx cell = .ok c' →
        ∃ exps : List (List Char), exps.length = pairs.length ∧
          c'.source = .str ((pairs.zip exps).foldr
            (fun pe acc => pe.1.1 ++ pe.2 ++ acc) tail))
    ∧ (pairs = [] → process_cell ig ctx cell = .ok cell) := by
  refine ⟨?_, ?_, ?_⟩
  · have h := findMacros_join s
    rw [hfm] at h
    exact h
  · intro c' h
    simp only [process_cell, hsrc, hfm] at h
    cases hem : expandMatches ig ctx cell pairs with
    | error e => rw [hem] at h; simp at h
    | ok bc =>
      rcases bc with ⟨body, c⟩
      rw [hem] at h
      simp only [Except.ok.injEq] at h
      obtain ⟨exps, hlen, hbody⟩ := expandMatches_shape ig ctx pairs cell body c hem
      refine ⟨exps, hlen, ?_⟩
      rw [← h]
      simp only [hbody, foldr_splice_append]
  · intro hnil
    subst hnil
    exact process_cell_no_macros ig ctx cell s hsrc (by rw [hfm])

/-- Claim C5 witness: a concrete macro-free cell comes back unchanged. -/
theorem claim_C5_witness :
    process_cell false exCtx (mdCell ("plain text, no macros"))
      = .ok (mdCell ("plain text, no macros")) :=
  (claim_C5 false exCtx (mdCell ("plain text, no macros"))
    (("plain text, no macros").data) [] (("plain text, no macros").data)
    rfl rfl).2.2 rfl

/-- Claim C9 counterexample.  The claim says a null return from the
dispatcher's `process_cell` is the mechanism for the truncation
sentinel.  In the code `process_cell` never returns `None`: applied to
the sentinel cell itself it returns that very cell, and the drop happens
in the orchestrator's scan (`break` before the dispatcher is even
called), as the second conjunct shows. -/
theorem claim_C9_counterexample :
    process_cell false exCtx (mdCell ("#%%RM_BELOW%%"))
      = .ok (mdCell ("#%%RM_BELOW%%"))
    ∧ collect_cells false exCtx some
        [mdCell ("#%%RM_BELOW%%"), mdCell ("C")] = .ok [] :=
  ⟨rfl, rfl⟩

/-- Claim C9 amended: the dispatcher's `process_cell` always returns a
cell (never a drop signal) — on any sentinel cell it returns the cell
unchanged — while the truncation of the sentinel cell and everything
after it is performed by the orchestrator's scan; the `Cell | null`
drop contract belongs to the external substitution resolver. -/
theorem claim_C9_amended (ig : Bool) (ctx : Ctx)
    (macroer : Cell → Option Cell) (cell : Cell) (s : List Char)
    (rest : List Cell) (hsrc : cell.source = .str s)
    (hsent : trimChars s = rmBelow) :
    collect_cells ig ctx macroer (cell :: rest) = .ok []
    ∧ process_cell ig ctx cell = .ok cell := by
  constructor
  · simp [collect_cells, hsrc, hsent]
  · have hnd : '$' ∉ s := no_dollar_of_trim_rmBelow hsent
    exact process_cell_no_macros ig ctx cell s hsrc
      (by rw [findMacros_of_no_dollar s hnd])

/-- Claim C9 amended witness: a concrete whitespace-padded sentinel cell is
dropped by the scan yet returned intact by the dispatcher. -/
theorem claim_C9_amended_witness :
    collect_cells false exCtxDaily some
        [mdCell ("  #%%RM_BELOW%%  "), mdCell ("Z")] = .ok []
    ∧ process_cell false exCtxDaily (mdCell ("  #%%RM_BELOW%%  "))
        = .ok (mdCell ("  #%%RM_BELOW%%  ")) :=
  claim_C9_amended false exCtxDaily some (mdCell ("  #%%RM_BELOW%%  "))
    (("  #%%RM_BELOW%%  ").data) [mdCell ("Z")] rfl (by decide)

/-- Claim C2 counterexample.  The claim quantifies over macro names that
are "not a registered built-in operation" and promises the Unrecognized
Macro condition (strict) or reference removal (permissive).  The name
`make_cell` is not one of the twelve built-in operations, yet
`getattr(self, 'make_cell', None)` resolves it, so neither promise
holds: in both modes the invocation fails with a `TypeError`-class
error, not the Unrecognized Macro condition, and the permissive pass
aborts instead of removing the reference. -/
theorem claim_C2_counterexample :
    process_cell false exCtx (mdCell ("x #$make_cell$ y")) = .error .typeError
    ∧ process_cell true exCtx (mdCell ("x #$make_cell$ y")) = .error .typeError :=
  ⟨rfl, rfl⟩

/-- Claim C2 amended: for every cell whose macro references all carry
names matching *no attribute of the preprocessor* (neither a built-in
operation nor another method/field such as `make_cell` or `track`),
strict mode raises Unrecognized Macro carrying the first reference's
parsed name, and permissive mode returns the cell with exactly the
delimited references removed (empty expansions) and all literal text
unchanged. -/
theorem claim_C2_amended (ctx : Ctx) (cell : Cell) (s : List Char)
    (pairs : List (List Char × List Char)) (tail : List Char)
    (hsrc : cell.source = .str s) (hfm : findMacros s = (pairs, tail))
    (hunres : ∀ pm ∈ pairs, ∃ n args, parseCall pm.2 = .ok (n, args) ∧
        builtinOp n = none ∧ n ∉ otherAttrNames) :
    (∀ p0 m0 rest n0 args0, pairs = (p0, m0) :: rest →
        parseCall m0 = .ok (n0, args0) →
        process_cell false ctx cell = .error (.unrecognizedMacro n0))
    ∧ process_cell true ctx cell
        = .ok { cell with
            source := CellSource.str
              (pairs.foldr (fun pm acc => pm.1 ++ acc) tail) } := by
  constructor
  · intro p0 m0 rest n0 args0 hpairs hp0
    subst hpairs
    have hexp := expand_macro_unrec ctx cell m0 n0 args0 hp0
      (by
        obtain ⟨n, args, hp, hb, _⟩ := hunres (p0, m0) (List.mem_cons_self _ _)
        rw [hp0] at hp
        simp only [Except.ok.injEq, Prod.mk.injEq] at hp
        rw [hp.1]; exact hb)
      (by
        obtain ⟨n, args, hp, _, hm⟩ := hunres (p0, m0) (List.mem_cons_self _ _)
        rw [hp0] at hp
        simp only [Except.ok.injEq, Prod.mk.injEq] at hp
        rw [hp.1]; exact hm)
    simp [process_cell, hsrc, hfm, expandMatches, hexp]
  · have hall := expandMatches_all_unrec ctx pairs cell hunres
    simp only [process_cell, hsrc, hfm, hall]
    rw [foldr_pre_append]

/-- Claim C2 amended witness: a concrete cell with one unresolvable
reference — strict aborts naming `FOO`, permissive splices the literal
segments back together. -/
theorem claim_C2_amended_witness :
    process_cell false exCtx (mdCell ("x #$FOO$ y"))
      = .error (.unrecognizedMacro (("FOO").data))
    ∧ process_cell true exCtx (mdCell ("x #$FOO$ y"))
      = .ok { mdCell ("x #$FOO$ y") with source := .str (("x  y").data) } := by
  have h := claim_C2_amended exCtx (mdCell ("x #$FOO$ y"))
    (("x #$FOO$ y").data) [((("x ").data), (("FOO").data))] ((" y").data)
    rfl rfl
    (by
      intro pm hpm
      rw [List.mem_singleton] at hpm
      subst hpm
      exact ⟨("FOO").data, [], rfl, rfl, by decide⟩)
  refine ⟨h.1 _ _ _ _ _ rfl rfl, ?_⟩
  rw [h.2]
  rfl

/-- The twelve built-in macro operations enumerated in the spec's macro
table (§4.2). -/
def builtinNames : List (List Char) :=
  [("EXERCISE_FORKING_URL").data, ("HIDE_INPUT").data, ("HIDE_OUTPUT").data,
   ("HIDE").data, ("YOURTURN").data, ("TUT_BETA_NOTE").data,
   ("EXERCISE_SETUP").data, ("TUTORIAL_URL").data, ("EXERCISE_URL").data,
   ("EXERCISE_PREAMBLE").data, ("KEEP_GOING").data,
   ("END_OF_EMB_EXERCISE").data]

/-- Claim C3 counterexample.  The claim says every name outside the
twelve-entry built-in set fails resolution with the Unrecognized Macro
condition.  `expand_macro` is outside that set, yet
`getattr(self, 'expand_macro', None)` resolves it (to the dispatcher's
own method), so its invocation fails with a `TypeError` — not the
Unrecognized Macro condition. -/
theorem claim_C3_counterexample :
    expand_macro exCtx (("expand_macro").data) (mdCell ("z"))
      = .error .typeError := rfl

/-- Claim C3 amended: each of the twelve built-in names resolves (by exact
match) to its operation, but resolution is attribute lookup on the
preprocessor object, which also resolves its other methods and fields;
only a name matching no attribute fails with the Unrecognized Macro
condition. -/
theorem claim_C3_amended :
    (∀ n ∈ builtinNames, (builtinOp n).isSome = true)
    ∧ (∀ (ctx : Ctx) (cell : Cell) (mac n : List Char)
        (args : List (List Char)),
        parseCall mac = .ok (n, args) → builtinOp n = none →
        n ∉ otherAttrNames →
        expand_macro ctx mac cell = .error (.unrecognizedMacro n)) := by
  constructor
  · intro n hn
    fin_cases hn <;> rfl
  · intro ctx cell mac n args hp hb hm
    exact expand_macro_unrec ctx cell mac n args hp hb hm

/-- Claim C3 amended witness: `BOGUS` matches no attribute and raises the
Unrecognized Macro condition; `HIDE` resolves to a built-in. -/
theorem claim_C3_amended_witness :
    expand_macro exCtxDaily (("BOGUS").data) (mdCell ("w"))
      = .error (.unrecognizedMacro (("BOGUS").data))
    ∧ (builtinOp (("HIDE").data)).isSome = true :=
  ⟨claim_C3_amended.2 exCtxDaily (mdCell ("w")) (("BOGUS").data)
      (("BOGUS").data) [] rfl rfl (by decide),
   claim_C3_amended.1 (("HIDE").data) (by decide)⟩

/-- Claim C6 counterexample.  The claim says argument `0` (or a negative
argument) makes `EXERCISE_URL` fail with an operation-internal error.
In the code `int('0') - 1 = -1` indexes `track.lessons[-1]`, which in
Python resolves to the *last* lesson: on the two-lesson fixture the call
succeeds and returns the second lesson's fork URL. -/
theorem claim_C6_counterexample :
    op_EXERCISE_URL exCtx [("0").data] (mdCell ("q"))
      = .ok (some (("https://fork2").data), mdCell ("q")) := rfl

/-- Claim C6 amended: `EXERCISE_URL(2)` on a track with ≥ 2 lessons
returns `track.lessons[1].exercise.forking_url`; argument `0` resolves
to the *last* lesson's fork URL (Python negative indexing), and only an
argument whose zero-based offset falls outside `[-len, len)` raises the
`IndexError` that aborts the pass. -/
theorem claim_C6_amended (ctx : Ctx) (cell : Cell) :
    (∀ l0 l1 rest ex, ctx.track.lessons = l0 :: l1 :: rest →
        l1.exercise = some ex →
        op_EXERCISE_URL ctx [("2").data] cell = .ok (some ex.forking_url, cell))
    ∧ (∀ ll exl, ctx.track.lessons ≠ [] →
        ctx.track.lessons.get? (ctx.track.lessons.length - 1) = some ll →
        ll.exercise = some exl →
        op_EXERCISE_URL ctx [("0").data] cell
          = .ok (some exl.forking_url, cell))
    ∧ (∀ narg i, pyInt narg = .ok i →
        ((ctx.track.lessons.length : Int) ≤ i - 1
          ∨ i - 1 < -(ctx.track.lessons.length : Int)) →
        op_EXERCISE_URL ctx [narg] cell = .error .indexError) := by
  refine ⟨?_, ?_, ?_⟩
  · intro l0 l1 rest ex hles hex
    have hint : pyInt (("2").data) = .ok 2 := rfl
    have hk : 1 < (l0 :: l1 :: rest).length := by simp
    have hidx : pyIndex ctx.track.lessons (1 : Int) = .ok l1 := by
      rw [hles]
      have h := pyIndex_to_get (l0 :: l1 :: rest) (1 : Int) 1 hk (by norm_num)
      simpa using h
    simp [op_EXERCISE_URL, hint, hidx, hex]
  · intro ll exl hne hll hex
    have hint : pyInt (("0").data) = .ok 0 := rfl
    have hlen : 0 < ctx.track.lessons.length := List.length_pos.2 hne
    have hk : ctx.track.lessons.length - 1 < ctx.track.lessons.length := by
      omega
    have hj : (if (-1 : Int) < 0
          then (-1 : Int) + ctx.track.lessons.length else (-1 : Int))
        = ((ctx.track.lessons.length - 1 : Nat) : Int) := by
      rw [if_pos (by norm_num)]
      omega
    have hidx := pyIndex_to_get ctx.track.lessons (-1 : Int)
      (ctx.track.lessons.length - 1) hk hj
    rw [List.get?_eq_get hk] at hll
    have hget := Option.some.inj hll
    rw [hget] at hidx
    simp [op_EXERCISE_URL, hint, hidx, hex]
  · intro narg i hparse hrange
    have hidx := pyIndex_out_of_range ctx.track.lessons (i - 1) hrange
    simp [op_EXERCISE_URL, hparse, hidx]

/-- Claim C6 amended witness: on the two-lesson fixture, argument `2`
returns the second lesson's fork URL and argument `9` is out of range. -/
theorem claim_C6_amended_witness :
    op_EXERCISE_URL exCtxDaily [("2").data] (mdCell ("r"))
      = .ok (some (("https://fork2").data), mdCell ("r"))
    ∧ op_EXERCISE_URL exCtxDaily [("9").data] (mdCell ("r"))
      = .error .indexError := by
  constructor
  · have h := (claim_C6_amended exCtxDaily (mdCell ("r"))).1
      exLesson1 exLesson2 [] ⟨("https://fork2").data⟩ rfl rfl
    simpa using h
  · exact (claim_C6_amended exCtxDaily (mdCell ("r"))).2.2
      (("9").data) 9 rfl (by decide)

/-- Claim C7 (confirmed).  `KEEP_GOING` with `cfg.daily` true returns the
fixed message containing "another email tomorrow", whatever the lesson
is; with `cfg.daily` false on a lesson that has a `next`, it returns
text containing the next lesson's topic together with the next lesson's
tutorial URL when it has a tutorial, otherwise its exercise fork URL. -/
theorem claim_C7 (ctx : Ctx) (cell : Cell) :
    (ctx.cfg.daily = true →
      op_KEEP_GOING ctx [] cell = .ok (some keepGoingDailyMsg, cell)
      ∧ containsCh (("another email tomorrow").data) keepGoingDailyMsg = true)
    ∧ (∀ l nl, ctx.cfg.daily = false → ctx.lesson = some l →
        l.next = some nl →
        (∀ tut, nl.tutorial = some tut →
          ∃ t, op_KEEP_GOING ctx [] cell = .ok (some t, cell)
            ∧ containsCh nl.topic t = true
            ∧ containsCh tut.url t = true)
        ∧ (∀ ex, nl.tutorial = none → nl.exercise = some ex →
          ∃ t, op_KEEP_GOING ctx [] cell = .ok (some t, cell)
            ∧ containsCh nl.topic t = true
            ∧ containsCh ex.forking_url t = true)) := by
  constructor
  · intro hd
    refine ⟨by simp [op_KEEP_GOING, hd], ?_⟩
    have hdecomp : keepGoingDailyMsg
        = (("\n**You'll get ").data) ++ (("another email tomorrow").data)
          ++ ((" so you can keep learning. See you then.**").data) := by decide
    rw [hdecomp]
    exact containsCh_of_eq_append _ _ _
  · intro l nl hd hl hnl
    constructor
    · intro tut htut
      refine ⟨(("# Keep Going\n\nYou are ready for **[").data) ++ nl.topic
          ++ (("](").data) ++ tut.url ++ ((").**\n").data), ?_, ?_, ?_⟩
      · simp [op_KEEP_GOING, hd, hl, hnl, htut]
      · exact containsCh_of_decomp
          ((("# Keep Going\n\nYou are ready for **[").data))
          ((("](").data) ++ tut.url ++ ((").**\n").data))
          (by simp [List.append_assoc])
      · exact containsCh_of_decomp
          ((("# Keep Going\n\nYou are ready for **[").data)
            ++ nl.topic ++ (("](").data))
          (((").**\n").data))
          (by simp [List.append_assoc])
    · intro ex htut hex
      refine ⟨(("# Keep Going\n\nYou are ready for **[").data) ++ nl.topic
          ++ (("](").data) ++ ex.forking_url ++ ((").**\n").data), ?_, ?_, ?_⟩
      · simp [op_KEEP_GOING, hd, hl, hnl, htut, hex]
      · exact containsCh_of_decomp
          ((("# Keep Going\n\nYou are ready for **[").data))
          ((("](").data) ++ ex.forking_url ++ ((").**\n").data))
          (by simp [List.append_assoc])
      · exact containsCh_of_decomp
          ((("# Keep Going\n\nYou are ready for **[").data)
            ++ nl.topic ++ (("](").data))
          (((").**\n").data))
          (by simp [List.append_assoc])

/-- Claim C7 witness: the daily branch at a concrete context and cell. -/
theorem claim_C7_witness :
    op_KEEP_GOING exCtxDaily [] (mdCell ("k"))
      = .ok (some keepGoingDailyMsg, mdCell ("k"))
    ∧ containsCh (("another email tomorrow").data) keepGoingDailyMsg = true :=
  (claim_C7 exCtxDaily (mdCell ("k"))).1 rfl

/-- Claim C8 (code bug, evaluated at a failing input).  On a daily
development pass over an exercise notebook, the final sequence does
begin with one install cell for the single requested package followed by
exactly one path-augmentation cell, before all prior cells — but the
claim calls these "Code" cells, while `make_cell`'s code branch
reassigns its `defaults` dict and loses the `cell_type` (and `metadata`)
keys, so both injected cells carry no cell type at all.  (On a
*non-daily* development pass the claim also fails for the independent
reason recorded at C1: the pass aborts in `add_header_and_footer`.) -/
theorem claim_C8_code_eval :
    preprocess false exCtxDev some (("master").data)
        { cells := [mdCell ("A")], nb_type := "exercise" }
      = .ok { cells := [exPipCell, syspath_cell, mdCell ("A")],
              nb_type := "exercise" }
    ∧ exPipCell.cell_type = none
    ∧ syspath_cell.cell_type = none :=
  ⟨rfl, rfl, rfl⟩

/-- Claim C10 (confirmed).  `geocode` is total (the bare `except` returns
`None` on any failure): the address list has five entries, any address
outside it geocodes to `none`, and a `Point` is produced exactly when
the address is found at some index whose shapefile loads and whose
geometry yields a point. -/
theorem claim_C10 {G P : Type} (read_file : Nat → Except Unit G)
    (mkPoint : G → Except Unit P) (address : List Char) :
    all_addresses.length = 5
    ∧ (address ∉ all_addresses → geocode read_file mkPoint address = none)
    ∧ (∀ p, geocode read_file mkPoint address = some p ↔
        ∃ i g, listIndexOf all_addresses address = some i ∧
          read_file i = .ok g ∧ mkPoint g = .ok p) := by
  refine ⟨rfl, ?_, ?_⟩
  · intro hmem
    simp [geocode, listIndexOf_none_of_not_mem hmem]
  · intro p
    constructor
    · intro h
      rcases hidx : listIndexOf all_addresses address with _ | i
      · simp [geocode, hidx] at h
      · rcases hrf : read_file i with e | g
        · simp [geocode, hidx, hrf] at h
        · rcases hmk : mkPoint g with e | q
          · simp [geocode, hidx, hrf, hmk] at h
          · simp only [geocode, hidx, hrf, hmk, Option.some.injEq] at h
            refine ⟨i, g, rfl, hrf, ?_⟩
            rw [hmk, h]
    · rintro ⟨i, g, hidx2, hrf2, hmk2⟩
      simp [geocode, hidx2, hrf2, hmk2]

/-- Claim C10 witness: a listed address geocodes to a point when loading
succeeds; an unlisted address geocodes to `none`. -/
theorem claim_C10_witness :
    geocode (fun _ => (Except.ok () : Except Unit Unit))
        (fun _ => (Except.ok () : Except Unit Unit))
        (("2224 Shattuck Avenue Berkeley CA").data) = some ()
    ∧ geocode (fun _ => (Except.ok () : Except Unit Unit))
        (fun _ => (Except.ok () : Except Unit Unit))
        (("nowhere at all").data) = none := by
  constructor
  · exact ((claim_C10 (fun _ => Except.ok ()) (fun _ => Except.ok ())
      (("2224 Shattuck Avenue Berkeley CA").data)).2.2 ()).2
      ⟨0, (), rfl, rfl, rfl⟩
  · exact (claim_C10 (fun _ => Except.ok ()) (fun _ => Except.ok ())
      (("nowhere at all").data)).2.1 (by decide)

end Learntools
